import Mathlib

/-!
Verification of the Radicle storage core (`src/radicle/src/storage.rs`)
against its natural-language specification.

The Rust code is shallowly embedded: each Rust type becomes a Lean
structure or inductive, each function a Lean function.  Errors are
modelled with `Except`.  Helper functions living in modules of this
repository whose source is not available (`storage/refs.rs`,
`storage/git.rs`, `identity/doc.rs`, the `crypto` crate) are modelled
from the specification and marked as such in their doc comments.
-/

/-- A git reference name (Rust `RefString`). -/
abbrev RefString := String

/-- An object id of the underlying object store (Rust `Oid`, a byte
hash; git2 stores it as a fixed-size byte array).  We model it as its
byte sequence. -/
structure Oid where
  bytes : List Nat

deriving instance DecidableEq for Oid

/-- Rust `Oid::is_zero`: the zero oid (all bytes zero) signals absence. -/
def Oid.is_zero (o : Oid) : Bool := o.bytes.all (· == 0)

/-- The zero oid: twenty zero bytes (SHA-1 width). -/
def oidZero : Oid := ⟨List.replicate 20 0⟩

/-- Rust `RefUpdate`: an update to a reference (storage.rs lines 100-107). -/
inductive RefUpdate where
  | Updated (name : RefString) (old new : Oid)
  | Created (name : RefString) (oid : Oid)
  | Deleted (name : RefString) (oid : Oid)
  | Skipped (name : RefString) (oid : Oid)

deriving instance DecidableEq for RefUpdate

/-- Rust `RefUpdate::from(name, old, new)` (storage.rs lines 110-123):
checks `old.is_zero()`, then `new.is_zero()`, then `old != new`. -/
def RefUpdate.fromRef (name : RefString) (old new : Oid) : RefUpdate :=
  if old.is_zero then .Created name new
  else if new.is_zero then .Deleted name old
  else if old ≠ new then .Updated name old new
  else .Skipped name old

def RefUpdate.isUpdated : RefUpdate → Bool
  | .Updated _ _ _ => true
  | _ => false

def RefUpdate.isCreated : RefUpdate → Bool
  | .Created _ _ => true
  | _ => false

def RefUpdate.isDeleted : RefUpdate → Bool
  | .Deleted _ _ => true
  | _ => false

def RefUpdate.isSkipped : RefUpdate → Bool
  | .Skipped _ _ => true
  | _ => false

/-- The classification table of spec §3 invariant 5, read literally:
`Skipped` iff old = new, `Created` iff old is zero, `Deleted` iff new is
zero, `Updated` otherwise. -/
def refUpdateTable (name : RefString) (old new : Oid) : Prop :=
  ((RefUpdate.fromRef name old new).isSkipped = true ↔ old = new) ∧
  ((RefUpdate.fromRef name old new).isCreated = true ↔ old.is_zero = true) ∧
  ((RefUpdate.fromRef name old new).isDeleted = true ↔ new.is_zero = true) ∧
  ((RefUpdate.fromRef name old new).isUpdated = true ↔
    (old ≠ new ∧ old.is_zero = false ∧ new.is_zero = false))

instance (name : RefString) (old new : Oid) : Decidable (refUpdateTable name old new) := by
  unfold refUpdateTable
  infer_instance

/-- Legality of a `RefUpdate` value: every oid it carries is
well-formed, i.e. non-zero (a zero oid signals absence, spec §3). -/
def RefUpdate.wellFormed : RefUpdate → Bool
  | .Updated _ old new => !old.is_zero && !new.is_zero
  | .Created _ oid => !oid.is_zero
  | .Deleted _ oid => !oid.is_zero
  | .Skipped _ oid => !oid.is_zero

/-- Lowercase hex digit. -/
def hexDigit (n : Nat) : Char :=
  if n < 10 then Char.ofNat (Char.toNat '0' + n)
  else Char.ofNat (Char.toNat 'a' + (n - 10))

/-- One byte as two lowercase hex digits. -/
def byteHex (b : Nat) : String :=
  String.mk [hexDigit (b / 16 % 16), hexDigit (b % 16)]

/-- The full lowercase-hex rendering of an oid (Rust `Display for Oid`). -/
def Oid.hex (o : Oid) : String := String.join (o.bytes.map byteHex)

/-- Rust format-string precision `{oid:.p}`: the display of the oid
truncated to at most `p` characters. -/
def fmtOidPrec (o : Oid) (p : Nat) : String := (Oid.hex o).take p

/-- Rust `Display for RefUpdate` (storage.rs lines 126-143), translated
write by write. -/
def RefUpdate.display : RefUpdate → String
  | .Updated name old new =>
      "~ " ++ fmtOidPrec old 7 ++ ".." ++ fmtOidPrec new 7 ++ " " ++ name
  | .Created name oid =>
      "* 0000000.." ++ fmtOidPrec oid 7 ++ " " ++ name
  | .Deleted name oid =>
      "- " ++ fmtOidPrec oid 7 ++ "..0000000 " ++ name
  | .Skipped name oid =>
      "= " ++ fmtOidPrec oid 7 ++ ".." ++ fmtOidPrec oid 7 ++ " " ++ name

/-- The 7-character prefix of an oid's hex rendering, as the spec words
it (for a full-width oid the hex string has 40 characters, so this is
exactly 7 characters long). -/
def oid7 (o : Oid) : String := (Oid.hex o).take 7

/-- The display format exactly as the spec states it for each variant. -/
def RefUpdate.displaySpec : RefUpdate → String
  | .Updated name old new => "~ " ++ oid7 old ++ ".." ++ oid7 new ++ " " ++ name
  | .Created name oid => "* 0000000.." ++ oid7 oid ++ " " ++ name
  | .Deleted name oid => "- " ++ oid7 oid ++ "..0000000 " ++ name
  | .Skipped name oid => "= " ++ oid7 oid ++ ".." ++ oid7 oid ++ " " ++ name

lemma oid_is_zero_of_eq {a b : Oid} (h : a = b) : a.is_zero = b.is_zero := by
  rw [h]

/-- C1 counterexample: at `old = new = zero`, the claimed table is
inconsistent with the code — `old = new` holds, yet `RefUpdate::from`
returns `Created`, not `Skipped`. -/
theorem refUpdate_table_fails_at_zero_zero :
    ¬ refUpdateTable ("refs/heads/master") oidZero oidZero := by
  decide

/-- C1 (amended): for every name and every pair of oids not both zero,
`RefUpdate::from` returns `Skipped` iff old = new, `Created` iff old is
zero, `Deleted` iff new is zero, and `Updated` otherwise. -/
theorem refUpdate_from_classification (name : RefString) (old new : Oid)
    (h : ¬ (old.is_zero = true ∧ new.is_zero = true)) :
    refUpdateTable name old new := by
  unfold refUpdateTable RefUpdate.fromRef
  by_cases hz : old.is_zero = true
  · have hnz : new.is_zero = false := by
      rcases Bool.eq_false_or_eq_true new.is_zero with h1 | h1
      · exact absurd ⟨hz, h1⟩ h
      · exact h1
    have hne : old ≠ new := by
      intro he
      rw [oid_is_zero_of_eq he, hnz] at hz
      exact absurd hz (by decide)
    simp [hz, hnz, RefUpdate.isSkipped, RefUpdate.isCreated,
      RefUpdate.isDeleted, RefUpdate.isUpdated, hne]
  · have hz' : old.is_zero = false := by
      rcases Bool.eq_false_or_eq_true old.is_zero with h1 | h1
      · exact absurd h1 hz
      · exact h1
    by_cases hnz : new.is_zero = true
    · have hne : old ≠ new := by
        intro he
        rw [oid_is_zero_of_eq he, hnz] at hz'
        exact absurd hz' (by decide)
      simp [hz', hnz, RefUpdate.isSkipped, RefUpdate.isCreated,
        RefUpdate.isDeleted, RefUpdate.isUpdated, hne]
    · have hnz' : new.is_zero = false := by
        rcases Bool.eq_false_or_eq_true new.is_zero with h1 | h1
        · exact absurd h1 hnz
        · exact h1
      by_cases he : old = new
      · simp [hz', hnz', he, RefUpdate.isSkipped, RefUpdate.isCreated,
          RefUpdate.isDeleted, RefUpdate.isUpdated]
      · simp [hz', hnz', he, RefUpdate.isSkipped, RefUpdate.isCreated,
          RefUpdate.isDeleted, RefUpdate.isUpdated]

/-- C1 witness: the amended classification at a concrete input. -/
theorem refUpdate_from_classification_witness :
    ¬ ((Oid.mk (1 :: List.replicate 19 0)).is_zero = true ∧ oidZero.is_zero = true) ∧
    refUpdateTable ("refs/heads/master") (Oid.mk (1 :: List.replicate 19 0)) oidZero :=
  ⟨by decide,
   refUpdate_from_classification ("refs/heads/master")
     (Oid.mk (1 :: List.replicate 19 0)) oidZero (by decide)⟩

/-- C2: `RefUpdate::from(name, zero, zero)` yields no legal variant —
the code returns `Created` carrying the zero oid, which is not
well-formed. -/
theorem refUpdate_from_zero_zero_illegal (name : RefString) :
    RefUpdate.fromRef name oidZero oidZero = .Created name oidZero ∧
    (RefUpdate.fromRef name oidZero oidZero).wellFormed = false := by
  constructor
  · unfold RefUpdate.fromRef
    simp [show oidZero.is_zero = true from by decide]
  · unfold RefUpdate.fromRef
    simp [show oidZero.is_zero = true from by decide, RefUpdate.wellFormed]

/-- C7: for every `RefUpdate` value, the code's `Display` rendering is
exactly the format the spec prescribes for its variant. -/
theorem refUpdate_display_format (u : RefUpdate) :
    u.display = u.displaySpec := by
  cases u <;> rfl

/-- A public signing key (Rust `PublicKey` of the crypto crate; also
used as a remote id), modelled opaquely by its byte content. -/
structure PublicKey where
  key : Nat

deriving instance DecidableEq for PublicKey

/-- Rust `Namespaces` (storage.rs lines 32-39): describes one or more
namespaces.  The Rust `HashSet` of trusted keys is modelled as a finite
set. -/
inductive Namespaces where
  | All
  | Trusted (s : Finset PublicKey)

deriving instance DecidableEq for Namespaces

/-- The derived `Default for Namespaces` (storage.rs line 35): the
default is the `All` variant. -/
def Namespaces.default : Namespaces := .All

/-- Rust `FromIterator<PublicKey> for Namespaces` (storage.rs lines
41-45): collect the iterated keys into a `HashSet` wrapped in
`Trusted`.  The iterator is modelled by the list of items it yields. -/
def Namespaces.fromIter (keys : List PublicKey) : Namespaces :=
  .Trusted keys.toFinset

/-- C9: collecting an iterator of public keys always yields the
`Trusted` variant holding exactly the iterated keys; the empty iterator
yields `Trusted` with the empty set, which differs from the default
(`All`). -/
theorem namespaces_fromIter_trusted (keys : List PublicKey) :
    (∃ s, Namespaces.fromIter keys = .Trusted s ∧ ∀ k, k ∈ s ↔ k ∈ keys) ∧
    Namespaces.fromIter [] = .Trusted ∅ ∧
    Namespaces.fromIter [] ≠ Namespaces.default := by
  refine ⟨⟨keys.toFinset, rfl, fun k => List.mem_toFinset⟩, ?_, ?_⟩
  · simp [Namespaces.fromIter]
  · intro h
    simp only [Namespaces.fromIter, Namespaces.default] at h
    exact Namespaces.noConfusion h

/-- Kinds of i/o errors (Rust `std::io::ErrorKind`): the case the
storage layer distinguishes, plus representatives of the rest. -/
inductive IoErrorKind where
  | notFound
  | permissionDenied
  | otherKind (code : Nat)

deriving instance DecidableEq for IoErrorKind

/-- Rust `std::io::Error`, reduced to its kind. -/
structure IoError where
  kind : IoErrorKind

deriving instance DecidableEq for IoError

/-- Error codes of the underlying git library (`git2::Error`), reduced
to the classification the storage layer consumes. -/
inductive GitCode where
  | notFound
  | generic (code : Nat)

deriving instance DecidableEq for GitCode

/-- Rust `git2::Error`: an error code plus a message. -/
structure GitError where
  code : GitCode
  message : String

deriving instance DecidableEq for GitError

/-- Modelled from the spec: `storage::git::is_not_found_err`
(`storage/git.rs` is not under src/).  Spec §4.A: object-store failures
surface as a single git error kind that the upper layers classify into
NotFound versus other. -/
def is_not_found_err (e : GitError) : Bool := e.code == GitCode.notFound

/-- Modelled from the spec: `DocError` (`identity/doc.rs` is not under
src/), the identity-document error, reduced to whether it reports
absence, with an opaque remainder. -/
inductive DocError where
  | notFound
  | otherDoc (code : Nat)

deriving instance DecidableEq for DocError

/-- Modelled from the spec: `DocError::is_not_found` holds exactly on
the absence case (spec §7, create-on-miss patterns). -/
def DocError.is_not_found : DocError → Bool
  | .notFound => true
  | .otherDoc _ => false

/-- Modelled from the spec: `git::RefError` (the ref-name module is not
under src/), a malformed reference-name error, opaque here. -/
structure RefError where
  name : String

deriving instance DecidableEq for RefError

/-- Modelled from the spec: the crypto crate's failure taxonomy for
signed refs — `BadEncoding`, `BadSignature`, `UnknownKey` (spec §4.C). -/
inductive CryptoError where
  | badEncoding
  | badSignature
  | unknownKey

deriving instance DecidableEq for CryptoError

/-- Modelled from the spec: `storage::refs::Error` (`storage/refs.rs`
is not under src/): malformed manifest lines, a failing signature
check (spec §4.C), or an opaque lower-level failure. -/
inductive RefsError where
  | badEncoding
  | crypto (e : CryptoError)
  | otherRefs (code : Nat)

deriving instance DecidableEq for RefsError

/-- The storage `Error` (storage.rs lines 48-64), variant for variant;
the `OsString` payload of `InvalidId` is modelled as a string. -/
inductive Error where
  | InvalidRef
  | Doc (e : DocError)
  | Ref (e : RefError)
  | Refs (e : RefsError)
  | Git (e : GitError)
  | InvalidId (s : String)
  | IoErr (e : IoError)

deriving instance DecidableEq for Error

/-- Rust `Error::is_not_found` (storage.rs lines 66-76): the match with
its three guarded arms and the catch-all returning false. -/
def Error.is_not_found : Error → Bool
  | .IoErr e => e.kind == IoErrorKind.notFound
  | .Git e => is_not_found_err e
  | .Doc e => e.is_not_found
  | _ => false

/-- The classification claimed for `Error::is_not_found`, stated over
the variants as the spec words it. -/
def errorNotFoundSpec (e : Error) : Prop :=
  (∃ e1, e = Error.IoErr e1 ∧ e1.kind = IoErrorKind.notFound) ∨
  (∃ g, e = Error.Git g ∧ is_not_found_err g = true) ∨
  (∃ d, e = Error.Doc d ∧ d.is_not_found = true)

/-- C5: `Error::is_not_found` returns true exactly on an i/o error of
kind NotFound, a git error classified as not-found, or a doc error
whose own `is_not_found` holds; every other variant yields false. -/
theorem error_is_not_found_classification (e : Error) :
    (Error.is_not_found e = true ↔ errorNotFoundSpec e) ∧
    Error.is_not_found .InvalidRef = false ∧
    (∀ r, Error.is_not_found (.Ref r) = false) ∧
    (∀ r, Error.is_not_found (.Refs r) = false) ∧
    (∀ s, Error.is_not_found (.InvalidId s) = false) := by
  refine ⟨?_, rfl, fun _ => rfl, fun _ => rfl, fun _ => rfl⟩
  cases e <;>
    simp [Error.is_not_found, errorNotFoundSpec]

/-- A detached signature, modelled by its byte content. -/
abbrev Signature := List Nat

/-- Modelled from the spec: `SignedRefs<Unverified>` (`storage/refs.rs`
is not under src/).  Spec §3: a mapping from ref name to oid together
with a signature produced by the remote's key over a canonical
serialization; the signing key doubles as the remote id. -/
structure SignedRefsU where
  refs : List (RefString × Oid)
  signature : Signature
  id : PublicKey

deriving instance DecidableEq for SignedRefsU

/-- Modelled from the spec: `SignedRefs<Verified>` — the same data,
obtainable only through a successful verification. -/
structure SignedRefsV where
  refs : List (RefString × Oid)
  signature : Signature
  id : PublicKey

deriving instance DecidableEq for SignedRefsV

/-- The signature check of the crypto layer, abstracted: given the
manifest, the signature bytes and the key, does the signature verify? -/
abbrev SigCheck := List (RefString × Oid) → Signature → PublicKey → Bool

/-- Modelled from the spec: `SignedRefs::verified` — spec §4.C,
"verify: recomputes bytes, checks signature" against the carried key
(key equals remote id, spec §4.E); on success the same manifest is
returned in verified state, otherwise a crypto error. -/
def SignedRefs.verified (check : SigCheck) (s : SignedRefsU) :
    Except CryptoError SignedRefsV :=
  if check s.refs s.signature s.id then
    .ok ⟨s.refs, s.signature, s.id⟩
  else
    .error .badSignature

/-- Modelled from the spec: `SignedRefs::unverified` drops the
verification marker and changes nothing else (spec §9, polymorphism
over verification state). -/
def SignedRefs.unverified (s : SignedRefsV) : SignedRefsU :=
  ⟨s.refs, s.signature, s.id⟩

/-- Rust `Remote<Unverified>` (storage.rs lines 206-211): carries one
unverified signed-refs value. -/
structure RemoteU where
  refs : SignedRefsU

deriving instance DecidableEq for RemoteU

/-- Rust `Remote<Verified>` (storage.rs lines 206-211): carries one
verified signed-refs value. -/
structure RemoteV where
  refs : SignedRefsV

deriving instance DecidableEq for RemoteV

/-- Rust `Remote::<Unverified>::verified` (storage.rs lines 220-226):
verify the inner signed refs with the `?` operator, wrap the result. -/
def Remote.verified (check : SigCheck) (r : RemoteU) :
    Except CryptoError RemoteV :=
  match SignedRefs.verified check r.refs with
  | .ok refs => .ok ⟨refs⟩
  | .error e => .error e

/-- Rust `Remote::<Verified>::unverified` (storage.rs lines 234-238). -/
def Remote.unverified (r : RemoteV) : RemoteU :=
  ⟨SignedRefs.unverified r.refs⟩

/-- Rust `Remotes<Verified>` (storage.rs line 147): a hash map from
remote id to remote, modelled as its association list. -/
abbrev RemotesV := List (PublicKey × RemoteV)

/-- Rust `Remotes<Unverified>`, modelled as its association list. -/
abbrev RemotesU := List (PublicKey × RemoteU)

/-- Rust `Remotes::<Verified>::unverified` (storage.rs lines 169-177):
map `Remote::unverified` over every entry, keeping the ids. -/
def Remotes.unverified (rs : RemotesV) : RemotesU :=
  rs.map (fun p => (p.1, Remote.unverified p.2))

lemma signedRefs_verified_ok {check : SigCheck} {s : SignedRefsU}
    {t : SignedRefsV} (h : SignedRefs.verified check s = .ok t) :
    t.refs = s.refs ∧ t.signature = s.signature ∧ t.id = s.id := by
  unfold SignedRefs.verified at h
  by_cases hc : check s.refs s.signature s.id = true
  · simp only [hc, if_true, Except.ok.injEq] at h
    subst h
    exact ⟨rfl, rfl, rfl⟩
  · simp [hc] at h

/-- C3: `Remote::<Unverified>::verified` succeeds exactly when the
verification of the inner signed refs succeeds, and on success the
returned remote carries the verified form of the same refs manifest
(same entries, same signature, same key). -/
theorem remote_verified_iff (check : SigCheck) (r : RemoteU) :
    ((∃ v, Remote.verified check r = .ok v) ↔
      (∃ s, SignedRefs.verified check r.refs = .ok s)) ∧
    (∀ v, Remote.verified check r = .ok v →
      SignedRefs.verified check r.refs = .ok v.refs ∧
      v.refs.refs = r.refs.refs ∧
      v.refs.signature = r.refs.signature ∧
      v.refs.id = r.refs.id) := by
  constructor
  · unfold Remote.verified
    cases h : SignedRefs.verified check r.refs with
    | ok s => simp
    | error e => simp
  · intro v hv
    unfold Remote.verified at hv
    cases h : SignedRefs.verified check r.refs with
    | ok s =>
      rw [h] at hv
      simp only [Except.ok.injEq] at hv
      subst hv
      obtain ⟨h1, h2, h3⟩ := signedRefs_verified_ok h
      exact ⟨rfl, h1, h2, h3⟩
    | error e =>
      rw [h] at hv
      exact Except.noConfusion hv

/-- A concrete unverified remote used as a witness input. -/
def remoteU0 : RemoteU :=
  ⟨⟨[(("refs/heads/master" : RefString), Oid.mk (1 :: List.replicate 19 0))],
    [1, 2, 3], ⟨42⟩⟩⟩

/-- C3 witness: the equivalence at a concrete remote and a concrete
signature check. -/
theorem remote_verified_iff_witness :
    (∃ v, Remote.verified (fun _ _ _ => true) remoteU0 = .ok v) ↔
    (∃ s, SignedRefs.verified (fun _ _ _ => true) remoteU0.refs = .ok s) :=
  (remote_verified_iff (fun _ _ _ => true) remoteU0).1

/-- C10: converting verified remotes to unverified preserves the ids in
order, maps every entry to the unverified form of the same remote,
introduces no other entry, and alters no field of any refs manifest. -/
theorem remotes_unverified_frame (rs : RemotesV) :
    (Remotes.unverified rs).map Prod.fst = rs.map Prod.fst ∧
    (∀ i r, (i, r) ∈ rs → (i, Remote.unverified r) ∈ Remotes.unverified rs) ∧
    (∀ p, p ∈ Remotes.unverified rs →
      ∃ q ∈ rs, p = (q.1, Remote.unverified q.2)) ∧
    (∀ r : RemoteV,
      (Remote.unverified r).refs.refs = r.refs.refs ∧
      (Remote.unverified r).refs.signature = r.refs.signature ∧
      (Remote.unverified r).refs.id = r.refs.id) := by
  refine ⟨?_, ?_, ?_, ?_⟩
  · simp [Remotes.unverified]
  · intro i r h
    exact List.mem_map_of_mem (fun p => (p.1, Remote.unverified p.2)) h
  · intro p hp
    obtain ⟨q, hq, hpq⟩ := List.mem_map.mp hp
    exact ⟨q, hq, hpq.symm⟩
  · intro r
    refine ⟨?_, ?_, ?_⟩ <;> simp [Remote.unverified, SignedRefs.unverified]

/-- A concrete verified remote used as a witness input. -/
def remoteV0 : RemoteV :=
  ⟨⟨[(("refs/heads/master" : RefString), Oid.mk (1 :: List.replicate 19 0))],
    [1, 2, 3], ⟨42⟩⟩⟩

/-- C10 witness: membership preservation at a concrete one-entry map. -/
theorem remotes_unverified_frame_witness :
    ((⟨42⟩ : PublicKey), Remote.unverified remoteV0) ∈
      Remotes.unverified [(⟨42⟩, remoteV0)] :=
  (remotes_unverified_frame [(⟨42⟩, remoteV0)]).2.1 ⟨42⟩ remoteV0 (by simp)

/-- A delegate id (Rust `Did`), wrapping a public key. -/
structure Did where
  key : PublicKey

deriving instance DecidableEq for Did

/-- The nonempty list of the Rust `nonempty` crate: a head element plus
a possibly empty tail. -/
structure NonEmpty (α : Type) where
  head : α
  tail : List α

deriving instance DecidableEq for NonEmpty

/-- Repository visibility (spec §3): public or private. -/
inductive Visibility where
  | pub
  | priv

deriving instance DecidableEq for Visibility

/-- Modelled from the spec: the unverified identity document
(`identity/doc.rs` is not under src/), with the fields of spec §3;
freshly parsed, the delegate list not yet known nonempty. -/
structure DocU where
  version : Nat
  title : String
  description : String
  default_branch : RefString
  visibility : Visibility
  delegates : List Did
  threshold : Nat

deriving instance DecidableEq for DocU

/-- Modelled from the spec: the verified identity document — the same
fields, the delegate set now known nonempty (spec §3, §4.D). -/
structure DocV where
  version : Nat
  title : String
  description : String
  default_branch : RefString
  visibility : Visibility
  delegates : NonEmpty Did
  threshold : Nat

deriving instance DecidableEq for DocV

/-- Modelled from the spec: `IdentityError` (the identity module is not
under src/): the identity layer's error, embedding document errors via
the `?` conversion, with an opaque remainder. -/
inductive IdentityError where
  | doc (e : DocError)
  | otherIdentity (code : Nat)

deriving instance DecidableEq for IdentityError

/-- Rust `ReadRepository::identity_doc` (storage.rs lines 378-383):
read the identity head, then the document at that head.  The two trait
methods it calls are passed as arguments: `identityHead` is the result
of the `identity_head()` call and `identityDocAt` is the function
`identity_doc_at`, whose `DocError` converts via the `?` operator. -/
def ReadRepository.identity_doc
    (identityHead : Except IdentityError Oid)
    (identityDocAt : Oid → Except DocError DocU) :
    Except IdentityError (Oid × DocU) :=
  match identityHead with
  | .error e => .error e
  | .ok head =>
    match identityDocAt head with
    | .error e => .error (.doc e)
    | .ok doc => .ok (head, doc)

/-- C8: `identity_doc()` returns `(h, d)` exactly when `identity_head()`
returns `h` and `identity_doc_at(h)` returns `d`; it propagates a
failing `identity_head()` unchanged and wraps a failing
`identity_doc_at`; it fails exactly when one of the two calls fails. -/
theorem identity_doc_composition
    (identityHead : Except IdentityError Oid)
    (identityDocAt : Oid → Except DocError DocU) :
    (∀ h d, ReadRepository.identity_doc identityHead identityDocAt = .ok (h, d) ↔
      (identityHead = .ok h ∧ identityDocAt h = .ok d)) ∧
    (∀ e, identityHead = .error e →
      ReadRepository.identity_doc identityHead identityDocAt = .error e) ∧
    (∀ h e, identityHead = .ok h → identityDocAt h = .error e →
      ReadRepository.identity_doc identityHead identityDocAt = .error (.doc e)) ∧
    ((∃ p, ReadRepository.identity_doc identityHead identityDocAt = .ok p) ↔
      (∃ h, identityHead = .ok h ∧ ∃ d, identityDocAt h = .ok d)) := by
  refine ⟨?_, ?_, ?_, ?_⟩
  · intro h d
    cases hh : identityHead with
    | error e => simp [ReadRepository.identity_doc, hh]
    | ok h0 =>
      cases hd : identityDocAt h0 with
      | error e =>
        simp [ReadRepository.identity_doc, hh, hd]
        rintro rfl
        rw [hd]
        simp
      | ok d0 =>
        simp only [ReadRepository.identity_doc, hh, hd, Except.ok.injEq, Prod.mk.injEq]
        constructor
        · rintro ⟨rfl, rfl⟩
          exact ⟨rfl, hd⟩
        · rintro ⟨rfl, h2⟩
          rw [hd] at h2
          simp only [Except.ok.injEq] at h2
          exact ⟨rfl, h2⟩
  · intro e he
    simp [ReadRepository.identity_doc, he]
  · intro h e hh hd
    simp [ReadRepository.identity_doc, hh, hd]
  · cases hh : identityHead with
    | error e => simp [ReadRepository.identity_doc, hh]
    | ok h0 =>
      cases hd : identityDocAt h0 with
      | error e => simp [ReadRepository.identity_doc, hh, hd]
      | ok d0 => simp [ReadRepository.identity_doc, hh, hd]

/-- A concrete unverified identity document used as a witness input. -/
def docU0 : DocU :=
  ⟨1, ("heartwood"), ("a repository"), ("refs/heads/master"),
    .pub, [⟨⟨7⟩⟩], 1⟩

/-- C8 witness: a failing `identity_head()` is propagated unchanged at
concrete inputs. -/
theorem identity_doc_composition_witness :
    ReadRepository.identity_doc (.error (.otherIdentity 0)) (fun _ => .ok docU0) =
      .error (.otherIdentity 0) :=
  (identity_doc_composition (.error (.otherIdentity 0)) (fun _ => .ok docU0)).2.1
    (.otherIdentity 0) rfl

/-- Rust `ReadRepository::delegates` (storage.rs lines 370-375): read
the identity document, verify it, return its delegate set.
`identityDoc` is the result of the `identity_doc()` call and
`docVerified` the `Doc::<Unverified>::verified` function of the
identity layer, whose `DocError` converts via the `?` operator. -/
def ReadRepository.delegates
    (identityDoc : Except IdentityError (Oid × DocU))
    (docVerified : DocU → Except DocError DocV) :
    Except IdentityError (NonEmpty Did) :=
  match identityDoc with
  | .error e => .error e
  | .ok (_, doc) =>
    match docVerified doc with
    | .error e => .error (.doc e)
    | .ok d => .ok d.delegates

/-- C6: `delegates()` returns exactly the delegates field of the
verified identity document obtained from `identity_doc()`; it
propagates a failing `identity_doc()` unchanged and wraps a failing
verification. -/
theorem delegates_from_verified_doc
    (identityDoc : Except IdentityError (Oid × DocU))
    (docVerified : DocU → Except DocError DocV) :
    (∀ ds, ReadRepository.delegates identityDoc docVerified = .ok ds ↔
      ∃ h doc d, identityDoc = .ok (h, doc) ∧ docVerified doc = .ok d ∧
        ds = d.delegates) ∧
    (∀ e, identityDoc = .error e →
      ReadRepository.delegates identityDoc docVerified = .error e) ∧
    (∀ h doc e, identityDoc = .ok (h, doc) → docVerified doc = .error e →
      ReadRepository.delegates identityDoc docVerified = .error (.doc e)) := by
  refine ⟨?_, ?_, ?_⟩
  · intro ds
    cases hh : identityDoc with
    | error e => simp [ReadRepository.delegates, hh]
    | ok p =>
      obtain ⟨h0, doc0⟩ := p
      cases hv : docVerified doc0 with
      | error e => simp [ReadRepository.delegates, hh, hv]
      | ok d0 =>
        simp only [ReadRepository.delegates, hh, hv, Except.ok.injEq]
        constructor
        · rintro rfl
          exact ⟨h0, doc0, d0, rfl, hv, rfl⟩
        · rintro ⟨h1, doc1, d1, he, hv1, hds⟩
          simp only [Except.ok.injEq, Prod.mk.injEq] at he
          obtain ⟨rfl, rfl⟩ := he
          rw [hv] at hv1
          simp only [Except.ok.injEq] at hv1
          subst hv1
          exact hds.symm
  · intro e he
    simp [ReadRepository.delegates, he]
  · intro h doc e hh hv
    simp [ReadRepository.delegates, hh, hv]

/-- C6 witness: a failing `identity_doc()` is propagated unchanged at
concrete inputs. -/
theorem delegates_from_verified_doc_witness :
    ReadRepository.delegates (.error (.otherIdentity 1))
      (fun _ => .error DocError.notFound) = .error (.otherIdentity 1) :=
  (delegates_from_verified_doc (.error (.otherIdentity 1))
    (fun _ => .error DocError.notFound)).2.1 (.otherIdentity 1) rfl

/-- Modelled from the spec: `VerifyError` (`storage/git.rs` is not
under src/), the verification-pipeline error (spec §6-§7): bad
signature, listed object missing from the store, identity-document
failure, plus the embedded signed-refs error required by the `?`
conversion applied to `remotes()` inside `validate`. -/
inductive VerifyError where
  | refs (e : RefsError)
  | badSignature
  | missingObject (o : Oid)
  | docVerify (e : DocError)
  | otherVerify (code : Nat)

deriving instance DecidableEq for VerifyError

/-- The loop of `validate` (storage.rs lines 298-300): validate each
remote in turn, stopping at the first error; the list of unsigned refs
returned by a successful call is discarded. -/
def validateRemotes
    (validateRemote : RemoteV → Except VerifyError (List RefString)) :
    List (PublicKey × RemoteV) → Except VerifyError Unit
  | [] => .ok ()
  | (_, r) :: rest =>
    match validateRemote r with
    | .ok _ => validateRemotes validateRemote rest
    | .error e => .error e

/-- Rust `ReadRepository::validate` (storage.rs lines 297-302), the
trait's default body: iterate `validate_remote` over `remotes()?`.
`remotes` is the result of the `remotes()` call (its error converting
into `VerifyError` via the `?` operator) and `validateRemote` is the
trait's `validate_remote` method. -/
def ReadRepository.validate
    (remotes : Except RefsError (List (PublicKey × RemoteV)))
    (validateRemote : RemoteV → Except VerifyError (List RefString)) :
    Except VerifyError Unit :=
  match remotes with
  | .error e => .error (.refs e)
  | .ok l => validateRemotes validateRemote l

/-- Two fallible results have the same outcome when they fail with
equal errors or both succeed, the success payloads being arbitrary. -/
def outcomeEq {ε α β : Type} : Except ε α → Except ε β → Prop
  | .ok _, .ok _ => True
  | .error e, .error e1 => e = e1
  | .ok _, .error _ => False
  | .error _, .ok _ => False

lemma validateRemotes_ok_iff
    (vr : RemoteV → Except VerifyError (List RefString))
    (l : List (PublicKey × RemoteV)) :
    validateRemotes vr l = .ok () ↔ ∀ p ∈ l, ∃ v, vr p.2 = .ok v := by
  induction l with
  | nil => simp [validateRemotes]
  | cons hd rest ih =>
    obtain ⟨i, r⟩ := hd
    cases h : vr r with
    | ok v => simp [validateRemotes, h, ih]
    | error e => simp [validateRemotes, h]

lemma validateRemotes_error_iff
    (vr : RemoteV → Except VerifyError (List RefString))
    (l : List (PublicKey × RemoteV)) (e : VerifyError) :
    validateRemotes vr l = .error e ↔
      ∃ l1 p l2, l = l1 ++ p :: l2 ∧
        (∀ q ∈ l1, ∃ v, vr q.2 = .ok v) ∧ vr p.2 = .error e := by
  induction l with
  | nil => simp [validateRemotes]
  | cons hd rest ih =>
    obtain ⟨i, r⟩ := hd
    cases h : vr r with
    | ok v =>
      constructor
      · intro he
        simp only [validateRemotes, h] at he
        obtain ⟨l1, p, l2, hl, hall, herr⟩ := ih.mp he
        refine ⟨(i, r) :: l1, p, l2, by rw [hl, List.cons_append], ?_, herr⟩
        intro q hq
        rcases List.mem_cons.mp hq with hq | hq
        · subst hq
          exact ⟨v, h⟩
        · exact hall q hq
      · rintro ⟨l1, p, l2, hl, hall, herr⟩
        cases l1 with
        | nil =>
          simp only [List.nil_append, List.cons.injEq] at hl
          obtain ⟨hp, hrest⟩ := hl
          have h2 : vr r = .error e := by
            rw [← hp] at herr
            exact herr
          rw [h] at h2
          exact Except.noConfusion h2
        | cons q l1' =>
          simp only [List.cons_append, List.cons.injEq] at hl
          obtain ⟨hq, hrest⟩ := hl
          have hrec : validateRemotes vr rest = .error e :=
            ih.mpr ⟨l1', p, l2, hrest,
              fun q' hq' => hall q' (List.mem_cons_of_mem _ hq'), herr⟩
          simp only [validateRemotes, h]
          exact hrec
    | error e1 =>
      constructor
      · intro he
        simp only [validateRemotes, h, Except.error.injEq] at he
        subst he
        exact ⟨[], (i, r), rest, rfl, by simp, h⟩
      · rintro ⟨l1, p, l2, hl, hall, herr⟩
        cases l1 with
        | nil =>
          simp only [List.nil_append, List.cons.injEq] at hl
          obtain ⟨hp, hrest⟩ := hl
          have h2 : vr r = .error e := by
            rw [← hp] at herr
            exact herr
          rw [h] at h2
          simp only [Except.error.injEq] at h2
          simp only [validateRemotes, h, h2]
        | cons q l1' =>
          simp only [List.cons_append, List.cons.injEq] at hl
          obtain ⟨hq, hrest⟩ := hl
          have hok : ∃ v, vr r = .ok v := by
            have := hall q (List.mem_cons_self q l1')
            rw [← hq] at this
            exact this
          obtain ⟨v, hv⟩ := hok
          rw [h] at hv
          exact Except.noConfusion hv

lemma validateRemotes_congr
    (vr vr' : RemoteV → Except VerifyError (List RefString))
    (hc : ∀ r, outcomeEq (vr r) (vr' r)) :
    ∀ l, validateRemotes vr l = validateRemotes vr' l := by
  intro l
  induction l with
  | nil => rfl
  | cons hd rest ih =>
    obtain ⟨i, r⟩ := hd
    have hr := hc r
    cases h : vr r with
    | ok v =>
      cases h' : vr' r with
      | ok v' =>
        simp only [validateRemotes, h, h']
        exact ih
      | error e1 =>
        rw [h, h'] at hr
        exact ((hr : False)).elim
    | error e =>
      cases h' : vr' r with
      | ok v' =>
        rw [h, h'] at hr
        exact ((hr : False)).elim
      | error e1 =>
        rw [h, h'] at hr
        have he : e = e1 := hr
        simp only [validateRemotes, h, h']
        rw [he]

/-- C4: `validate` succeeds iff `validate_remote` succeeds on every
remote returned by `remotes()`; a `remotes()` failure propagates; a
`validate_remote` failure makes `validate` return the first error
encountered; and the unsigned-ref lists returned by successful calls
never affect the outcome. -/
theorem validate_all_remotes
    (remotes : Except RefsError (List (PublicKey × RemoteV)))
    (vr : RemoteV → Except VerifyError (List RefString)) :
    (∀ e, remotes = .error e →
      ReadRepository.validate remotes vr = .error (.refs e)) ∧
    (∀ l, remotes = .ok l →
      ((ReadRepository.validate remotes vr = .ok ()) ↔
        ∀ p ∈ l, ∃ v, vr p.2 = .ok v) ∧
      (∀ e, ReadRepository.validate remotes vr = .error e ↔
        ∃ l1 p l2, l = l1 ++ p :: l2 ∧
          (∀ q ∈ l1, ∃ v, vr q.2 = .ok v) ∧ vr p.2 = .error e)) ∧
    (∀ vr', (∀ r, outcomeEq (vr r) (vr' r)) →
      ReadRepository.validate remotes vr = ReadRepository.validate remotes vr') := by
  refine ⟨?_, ?_, ?_⟩
  · intro e he
    simp [ReadRepository.validate, he]
  · intro l hl
    rw [hl]
    exact ⟨validateRemotes_ok_iff vr l, fun e => validateRemotes_error_iff vr l e⟩
  · intro vr' hc
    cases hr : remotes with
    | error e => rfl
    | ok l => exact validateRemotes_congr vr vr' hc l

/-- C4 witness: the success equivalence at a concrete remote list and
a concrete `validate_remote`. -/
theorem validate_all_remotes_witness :
    (ReadRepository.validate (.ok [((⟨42⟩ : PublicKey), remoteV0)])
        (fun _ => (.ok [] : Except VerifyError (List RefString))) = .ok ()) ↔
      ∀ p ∈ [((⟨42⟩ : PublicKey), remoteV0)],
        ∃ v, (fun _ : RemoteV =>
          (.ok [] : Except VerifyError (List RefString))) p.2 = .ok v :=
  ((validate_all_remotes (.ok [((⟨42⟩ : PublicKey), remoteV0)])
      (fun _ => (.ok [] : Except VerifyError (List RefString)))).2.1 _ rfl).1
